import Mathlib

/-
Shallow embedding of the client-side-sanitizer module
(src/unnamed/part_000, "client-side-sanitizer V1.2.0").

The module consists of
  * a mutable registry PRESETS : { name ↦ RegExp } seeded with the four
    built-in presets text / number / email / url,
  * setPresets(newPresets)  — guarded object-spread merge into PRESETS,
  * sanitizeInput(input, config = 'text') — type check on the input,
    config normalization, rule resolution (custom allow-fragment regex
    built by new RegExp("[^" + allow + "]", "g") inside try/catch, or a
    preset lookup with fallback to the default preset 'text'), then a
    global String.replace with the empty string and a removedCount
    computed as the length delta.

Modelling decisions, all taken from the source:
  * JS values are the inductive JSVal; objects are plain own-property
    field lists (getters, proxies and prototype-chain lookups are outside
    the model: property reads return own entries or undefined, and throw
    exactly on null/undefined receivers, as the source relies on).
  * JS RegExp values are modelled by the character-class subset of the
    JS regex grammar that covers every pattern the module builds: a
    pattern is a concatenation of terms, each term a character class
    [...] / [^...] (with literal members, ranges, identity escapes, and
    the Annex-B empty classes [] / [^]) or a single literal character
    (including the Annex-B lone ']' and identity escapes \c). Quantifier,
    group, alternation and shorthand-class syntax is outside the subset.
    All RegExp values carry the g flag, as every regex in the source does.
    RegExp construction failure (unterminated class, trailing backslash,
    out-of-order range — the SyntaxErrors reachable from these patterns)
    is modelled by the pattern functions returning none.
  * console.log / console.error output is modelled by a List Diag
    returned next to the result; a thrown exception by Except.error.
  * Strings are Lean String values over their Char lists; JS indexes
    UTF-16 units while Lean Char is a scalar value, which agree on the
    basic multilingual plane the module's character classes live in.
-/

namespace ClientSanitizer

/-- One member of a regex character class: a single character or a range. -/
inductive ClassItem where
| single (c : Char)
| range (lo hi : Char)
deriving DecidableEq, Repr

/-- One term of a (quantifier-free) regex concatenation: a character class
with an optional negation flag, or a literal character. -/
inductive RTerm where
| cls (neg : Bool) (items : List ClassItem)
| lit (c : Char)
deriving DecidableEq, Repr

/-- Model of the JS values the module manipulates. -/
inductive JSVal where
| str (s : String)
| num (n : Int)
| bool (b : Bool)
| null
| undefined
| regexVal (src : String) (terms : List RTerm)
| obj (fields : List (String × JSVal))

/-- Is the value the JS null value? -/
def JSVal.isNull : JSVal → Bool
| .null => true
| _ => false

/-- Is the value the JS undefined value? -/
def JSVal.isUndefined : JSVal → Bool
| .undefined => true
| _ => false

/-- The one exception class the modelled code can throw: the TypeError
raised by a property access on null or undefined. -/
inductive JSError where
| typeError
deriving DecidableEq, Repr

/-- Diagnostics emitted on the console channel by the source
(console.log / console.error), modelled as tags. -/
inductive Diag where
| presetsUpdated
| invalidPresets
| invalidAllow
deriving DecidableEq, Repr

/-- Return value of sanitizeInput: { safeValue, removedCount }. -/
structure SanitizeResult where
  safeValue : String
  removedCount : Int
deriving DecidableEq, Repr

/-- JS typeof, restricted to the modelled values. -/
def typeofStr : JSVal → String
| .str _ => "string"
| .num _ => "number"
| .bool _ => "boolean"
| .null => "object"
| .undefined => "undefined"
| .regexVal _ _ => "object"
| .obj _ => "object"

/-- JS truthiness of the modelled values (NaN is outside the model). -/
def truthy : JSVal → Bool
| .str s => !(s == "")
| .num n => !(n == 0)
| .bool b => b
| .null => false
| .undefined => false
| .regexVal _ _ => true
| .obj _ => true

/-- JS ToString of the modelled values, as used for property keys,
template literals and the non-regex String.replace search value. -/
def toStr : JSVal → String
| .str s => s
| .num n => toString n
| .bool b => if b then "true" else "false"
| .null => "null"
| .undefined => "undefined"
| .regexVal src _ => "/" ++ src ++ "/g"
| .obj _ => "[object Object]"

/-- JS property read v[k]: throws TypeError on null/undefined, returns the
own entry or undefined on objects, undefined on (boxed) primitives. -/
def getField : JSVal → String → Except JSError JSVal
| .null, _ => .error .typeError
| .undefined, _ => .error .typeError
| .obj fields, k => .ok ((fields.lookup k).getD .undefined)
| _, _ => .ok .undefined

/-- JS a || b on values. -/
def jsOr (a b : JSVal) : JSVal :=
  if truthy a then a else b

/-- Does a class item match a character (JS code-unit comparisons)? -/
def classItemMatches : ClassItem → Char → Bool
| .single c, x => x == c
| .range lo hi, x => decide (lo ≤ x) && decide (x ≤ hi)

/-- Does a regex term match a character? A negated class matches exactly
when no member does; in particular, the negated empty class matches
every character. -/
def termMatches : RTerm → Char → Bool
| .cls neg items, x => (items.any fun it => classItemMatches it x) != neg
| .lit c, x => x == c

/-- Does the term list match a prefix of the character list, one
character per term? -/
def matchesAt : List RTerm → List Char → Bool
| [], _ => true
| _ :: _, [] => false
| t :: ts, c :: cs => termMatches t c && matchesAt ts cs

/-- Global regex replacement with the empty string for a nonempty term
list t0 :: ts, on fuel (the fuel is instantiated with the string length,
which suffices since every step consumes at least one character): scan
left to right, delete each leftmost nonoverlapping match, resume after
it, as String.prototype.replace does with a g-flagged regex. -/
def replaceAllGo (t0 : RTerm) (ts : List RTerm) : Nat → List Char → List Char
| _, [] => []
| 0, cs => cs
| fuel + 1, c :: cs =>
  if termMatches t0 c && matchesAt ts cs then
    replaceAllGo t0 ts fuel (cs.drop ts.length)
  else
    c :: replaceAllGo t0 ts fuel cs

/-- Global replacement with the empty string for a modelled regex. The
empty pattern (never built by the source) matches only empty strings and
removes nothing. -/
def jsReplaceRegex (terms : List RTerm) (s : List Char) : List Char :=
  match terms with
  | [] => s
  | t0 :: ts => replaceAllGo t0 ts s.length s

/-- String.prototype.replace with a non-regex search value: delete the
first occurrence of the search string, if any (an empty search string
matches at index 0 and deletes nothing). -/
def removeFirstSub (pat : List Char) : List Char → List Char
| [] => []
| c :: cs =>
  if pat.isPrefixOf (c :: cs) then (c :: cs).drop pat.length
  else c :: removeFirstSub pat cs

/-- Does pat occur as a contiguous substring of the list? -/
def occursIn (pat : List Char) : List Char → Bool
| [] => pat.isPrefixOf []
| c :: cs => pat.isPrefixOf (c :: cs) || occursIn pat cs

/-- input.replace(finalRegex, ''): a modelled RegExp does a global regex
replacement; any other value is coerced to its string form and its first
occurrence is deleted. -/
def jsReplace (rule : JSVal) (s : List Char) : List Char :=
  match rule with
  | .regexVal _ terms => jsReplaceRegex terms s
  | v => removeFirstSub (toStr v).data s

/-- Read one character-class endpoint: an identity escape BACKSLASH-c is
the literal c, a trailing backslash is a SyntaxError (none). -/
def readClassChar : List Char → Option (Char × List Char)
| [] => none
| c :: rest =>
  if c == '\\' then
    match rest with
    | [] => none
    | e :: r => some (e, r)
  else some (c, rest)

/-- Read the body of a character class up to and including its closing
bracket, on fuel (instantiated with a bound on the remaining length).
A ']' directly after the opening '[' or '[^' closes an empty class, as
in JS; 'a-b' with an endpoint other than ']' after the '-' is a range,
which is a SyntaxError when out of order; a '-' that is first, last or
dangling is a literal; an unterminated class is a SyntaxError (none). -/
def readClassBody : Nat → List Char → Option (List ClassItem × List Char)
| _, ']' :: rest => some ([], rest)
| 0, _ => none
| _ + 1, [] => none
| fuel + 1, c :: rest =>
  match readClassChar (c :: rest) with
  | none => none
  | some (c1, r1) =>
    match r1 with
    | '-' :: (d :: r2) =>
      if d == ']' then
        match readClassBody fuel ('-' :: d :: r2) with
        | none => none
        | some (items, rest2) => some (.single c1 :: items, rest2)
      else
        match readClassChar (d :: r2) with
        | none => none
        | some (c2, r3) =>
          if decide (c1 ≤ c2) then
            match readClassBody fuel r3 with
            | none => none
            | some (items, rest2) => some (.range c1 c2 :: items, rest2)
          else none
    | _ =>
      match readClassBody fuel r1 with
      | none => none
      | some (items, rest2) => some (.single c1 :: items, rest2)

/-- Read a concatenation of regex terms to the end of the pattern, on
fuel: '[' opens a character class (with an optional leading '^'),
BACKSLASH-c is the literal c, any other character — including a lone
']', as in JS Annex B — is a literal. -/
def readTerms : Nat → List Char → Option (List RTerm)
| _, [] => some []
| 0, _ => none
| fuel + 1, c :: rest =>
  if c == '[' then
    let (neg, body) :=
      match rest with
      | '^' :: r => (true, r)
      | _ => (false, rest)
    match readClassBody (body.length + 1) body with
    | none => none
    | some (items, rest2) =>
      match readTerms fuel rest2 with
      | none => none
      | some ts => some (.cls neg items :: ts)
  else if c == '\\' then
    match rest with
    | [] => none
    | e :: r =>
      match readTerms fuel r with
      | none => none
      | some ts => some (.lit e :: ts)
  else
    match readTerms fuel rest with
    | none => none
    | some ts => some (.lit c :: ts)

/-- Model of new RegExp(pattern, 'g') for the pattern subset the module
builds: some terms, or none when construction throws a SyntaxError. -/
def buildRegex (pattern : String) : Option (List RTerm) :=
  readTerms (pattern.data.length + 1) pattern.data

/-- The default preset name (DEFAULT_TYPE in the source). -/
def DEFAULT_TYPE : String := "text"

/-- The registry state: the own entries of the PRESETS object, looked up
front to back (a merge prepends the overriding entries). -/
abbrev Registry := List (String × JSVal)

/-- PRESETS[k]: the registry entry named k, or undefined when absent. -/
def presetGet (reg : Registry) (k : String) : JSVal :=
  (reg.lookup k).getD .undefined

/-- The initial value of PRESETS: the four built-in preset regexes of
the source, with their source texts. -/
def initialPresets : Registry :=
  [ ("text", .regexVal "['\"<>&/]"
      [.cls false
        [.single '\'', .single '"', .single '<', .single '>',
         .single '&', .single '/']]),
    ("number", .regexVal "[^0-9]"
      [.cls true [.range '0' '9']]),
    ("email", .regexVal "[^a-zA-Z0-9@._-]"
      [.cls true
        [.range 'a' 'z', .range 'A' 'Z', .range '0' '9',
         .single '@', .single '.', .single '_', .single '-']]),
    ("url", .regexVal "[^a-zA-Z0-9._\\-/:?=&%]"
      [.cls true
        [.range 'a' 'z', .range 'A' 'Z', .range '0' '9',
         .single '.', .single '_', .single '-', .single '/',
         .single ':', .single '?', .single '=', .single '&',
         .single '%']]) ]

/-- The own enumerable entries a spread ...v contributes: the fields of
a plain object; none for the other modelled values (a RegExp has no own
enumerable properties). -/
def ownFields : JSVal → List (String × JSVal)
| .obj fields => fields
| _ => []

/-- setPresets(newPresets): when typeof newPresets is 'object' and it is
not null, PRESETS becomes { ...PRESETS, ...newPresets } (modelled by
prepending the new entries, which the lookup prefers) and a log line is
printed; otherwise an error is reported and the registry is untouched.
The operation cannot throw. -/
def setPresets (newPresets : JSVal) (reg : Registry) :
    Except JSError (Registry × List Diag) :=
  if typeofStr newPresets == "object" && !newPresets.isNull then
    .ok (ownFields newPresets ++ reg, [.presetsUpdated])
  else
    .ok (reg, [.invalidPresets])

/-- Config normalization in sanitizeInput: an omitted (undefined) config
becomes the default preset name via the default parameter, then a bare
string config c becomes { type: c }. -/
def normalizeConfig (config : JSVal) : JSVal :=
  let c := if config.isUndefined then JSVal.str DEFAULT_TYPE else config
  if typeofStr c == "string" then .obj [("type", c)] else c

/-- Rule resolution of sanitizeInput on the normalized options object:
a truthy allow field builds the whitelist regex [^allow] (falling back
to the default preset and reporting a diagnostic when construction
throws); otherwise the preset named by the type field — or the default
name when type is falsy — is looked up, falling back to the default
preset when that entry is falsy. Reading a field throws on a null
options value. -/
def resolveRule (options : JSVal) (reg : Registry) :
    Except JSError (JSVal × List Diag) := do
  let allowVal ← getField options "allow"
  if truthy allowVal then
    let pattern := "[^" ++ toStr allowVal ++ "]"
    match buildRegex pattern with
    | some terms => return (.regexVal pattern terms, [])
    | none => return (presetGet reg DEFAULT_TYPE, [.invalidAllow])
  else
    let typeVal ← getField options "type"
    let typeKey := if truthy typeVal then toStr typeVal else DEFAULT_TYPE
    return (jsOr (presetGet reg typeKey) (presetGet reg DEFAULT_TYPE), [])

/-- sanitizeInput(input, config = DEFAULT_TYPE) against a registry
state: a non-string input returns { safeValue: '', removedCount: 0 }
at once; a string input resolves a rule from the normalized config,
removes its matches, and reports the length delta as removedCount. -/
def sanitizeInput (input : JSVal) (config : JSVal) (reg : Registry) :
    Except JSError (SanitizeResult × List Diag) :=
  match input with
  | .str s => do
    let (finalRegex, log) ← resolveRule (normalizeConfig config) reg
    let safeValue : String := ⟨jsReplace finalRegex s.data⟩
    return ({ safeValue := safeValue,
              removedCount := (s.length : Int) - (safeValue.length : Int) },
            log)
  | _ => .ok ({ safeValue := "", removedCount := 0 }, [])

/-- The rule regex of the built-in text preset. -/
def textTerm : RTerm :=
  .cls false
    [.single '\'', .single '"', .single '<', .single '>',
     .single '&', .single '/']

/-- The six characters the default text preset removes. -/
def isXSSChar (c : Char) : Bool :=
  c == '\'' || c == '"' || c == '<' || c == '>' || c == '&' || c == '/'

theorem replaceAllGo_sublist (t0 : RTerm) (ts : List RTerm) :
    ∀ (fuel : Nat) (cs : List Char), (replaceAllGo t0 ts fuel cs).Sublist cs := by
  intro fuel
  induction fuel with
  | zero =>
    intro cs
    cases cs with
    | nil => exact List.Sublist.refl []
    | cons c cs => exact List.Sublist.refl (c :: cs)
  | succ n ih =>
    intro cs
    cases cs with
    | nil => exact List.Sublist.refl []
    | cons c cs =>
      simp only [replaceAllGo]
      split
      · exact ((ih _).trans (List.drop_sublist _ _)).cons c
      · exact (ih cs).cons₂ c

theorem replaceAllGo_nil_filter (t0 : RTerm) :
    ∀ (fuel : Nat) (cs : List Char), cs.length ≤ fuel →
      replaceAllGo t0 [] fuel cs = cs.filter (fun c => !termMatches t0 c) := by
  intro fuel
  induction fuel with
  | zero =>
    intro cs h
    cases cs with
    | nil => rfl
    | cons c cs => simp at h
  | succ n ih =>
    intro cs h
    cases cs with
    | nil => rfl
    | cons c cs =>
      have hlen : cs.length ≤ n := by simpa using h
      by_cases hm : termMatches t0 c = true
      · simp [replaceAllGo, matchesAt, hm, ih cs hlen, List.filter]
      · simp [replaceAllGo, matchesAt, hm, ih cs hlen, List.filter]

theorem removeFirstSub_sublist (pat : List Char) :
    ∀ (l : List Char), (removeFirstSub pat l).Sublist l := by
  intro l
  induction l with
  | nil => exact List.Sublist.refl []
  | cons c cs ih =>
    simp only [removeFirstSub]
    split
    · exact List.drop_sublist _ _
    · exact ih.cons₂ c

theorem jsReplace_sublist (rule : JSVal) (l : List Char) :
    (jsReplace rule l).Sublist l := by
  cases rule with
  | regexVal src terms =>
    cases terms with
    | nil => exact List.Sublist.refl l
    | cons t0 ts => exact replaceAllGo_sublist t0 ts l.length l
  | str s => exact removeFirstSub_sublist _ l
  | num n => exact removeFirstSub_sublist _ l
  | bool b => exact removeFirstSub_sublist _ l
  | null => exact removeFirstSub_sublist _ l
  | undefined => exact removeFirstSub_sublist _ l
  | obj fields => exact removeFirstSub_sublist _ l

theorem removeFirstSub_of_not_occursIn (pat : List Char) :
    ∀ (l : List Char), occursIn pat l = false → removeFirstSub pat l = l := by
  intro l
  induction l with
  | nil => intro _; rfl
  | cons c cs ih =>
    intro h
    rw [occursIn, Bool.or_eq_false_iff] at h
    simp only [removeFirstSub, h.1, Bool.false_eq_true, if_false]
    rw [ih h.2]

theorem filter_not_length_add_countP (p : Char → Bool) (l : List Char) :
    (l.filter fun c => !p c).length + l.countP p = l.length := by
  induction l with
  | nil => rfl
  | cons c cs ih =>
    by_cases h : p c = true <;>
      simp [List.filter, List.countP_cons, h] <;> omega

theorem termMatches_textTerm (c : Char) : termMatches textTerm c = isXSSChar c := by
  simp [termMatches, textTerm, classItemMatches, isXSSChar, Bool.or_assoc]

theorem exceptOkBind {α β ε : Type} (x : α) (f : α → Except ε β) :
    (Except.ok x >>= f : Except ε β) = f x := rfl

theorem getField_ok (v : JSVal) (k : String)
    (h1 : v.isNull = false) (h2 : v.isUndefined = false) :
    ∃ w, getField v k = .ok w := by
  cases v with
  | null => simp [JSVal.isNull] at h1
  | undefined => simp [JSVal.isUndefined] at h2
  | str s => exact ⟨_, rfl⟩
  | num n => exact ⟨_, rfl⟩
  | bool b => exact ⟨_, rfl⟩
  | regexVal src terms => exact ⟨_, rfl⟩
  | obj fields => exact ⟨_, rfl⟩

theorem resolveRule_ok (options : JSVal) (reg : Registry)
    (h1 : options.isNull = false) (h2 : options.isUndefined = false) :
    ∃ out, resolveRule options reg = .ok out := by
  obtain ⟨w, hw⟩ := getField_ok options "allow" h1 h2
  obtain ⟨w2, hw2⟩ := getField_ok options "type" h1 h2
  unfold resolveRule
  rw [hw, exceptOkBind]
  by_cases htr : truthy w = true
  · rw [if_pos htr]
    cases hbr : buildRegex ("[^" ++ toStr w ++ "]") with
    | some terms =>
      exact ⟨_, by simp only [hbr]; rfl⟩
    | none =>
      exact ⟨_, by simp only [hbr]; rfl⟩
  · rw [if_neg htr, hw2, exceptOkBind]
    exact ⟨_, rfl⟩

theorem normalizeConfig_not_nullish (config : JSVal) (h : config ≠ JSVal.null) :
    (normalizeConfig config).isNull = false ∧
      (normalizeConfig config).isUndefined = false := by
  cases config with
  | null => exact absurd rfl h
  | undefined => exact ⟨rfl, rfl⟩
  | str s => exact ⟨rfl, rfl⟩
  | num n => exact ⟨rfl, rfl⟩
  | bool b => exact ⟨rfl, rfl⟩
  | regexVal src terms => exact ⟨rfl, rfl⟩
  | obj fields => exact ⟨rfl, rfl⟩

theorem exceptBindOkApp {α β ε : Type} (x : α) (f : α → Except ε β) :
    (Except.ok x).bind f = f x := rfl

theorem exceptBindErr {α β ε : Type} (e : ε) (f : α → Except ε β) :
    (Except.error e).bind f = Except.error e := rfl

theorem sanitizeInput_str (s : String) (config : JSVal) (reg : Registry) :
    sanitizeInput (.str s) config reg =
      (resolveRule (normalizeConfig config) reg).bind fun out =>
        .ok ({ safeValue := (⟨jsReplace out.1 s.data⟩ : String),
               removedCount :=
                 (s.length : Int) - ((jsReplace out.1 s.data).length : Int) },
             out.2) := by
  show Except.bind _ _ = Except.bind _ _
  cases resolveRule (normalizeConfig config) reg with
  | error e => rfl
  | ok out => rfl

theorem jsOr_self (a : JSVal) : jsOr a a = a := by
  unfold jsOr
  split <;> rfl

theorem jsOr_of_falsy (a b : JSVal) (h : truthy a = false) : jsOr a b = b := by
  unfold jsOr
  rw [h]
  rfl

/-- C9 (confirmed): for every non-string input value v and every
configuration and registry state, sanitizeInput returns exactly
safeValue = "" with removedCount = 0 and no diagnostics, without
throwing; the universally quantified config and reg witness that neither
the configuration nor the registry is consulted. -/
theorem claim_C9_nonstring_input (v config : JSVal) (reg : Registry)
    (h : typeofStr v ≠ "string") :
    sanitizeInput v config reg =
      .ok ({ safeValue := "", removedCount := 0 }, []) := by
  cases v with
  | str s => exact absurd rfl h
  | num n => rfl
  | bool b => rfl
  | null => rfl
  | undefined => rfl
  | regexVal src terms => rfl
  | obj fields => rfl

/-- Witness for C9 at input 42 and the null configuration. -/
theorem claim_C9_witness :
    typeofStr (JSVal.num 42) ≠ "string" ∧
      sanitizeInput (JSVal.num 42) JSVal.null initialPresets =
        .ok ({ safeValue := "", removedCount := 0 }, []) :=
  ⟨by decide,
   claim_C9_nonstring_input (JSVal.num 42) JSVal.null initialPresets (by decide)⟩

/-- C8 (confirmed): calling setPresets with null or any non-object value
leaves the registry exactly as it was, reports a diagnostic instead of
mutating, and returns normally. -/
theorem claim_C8_setPresets_invalid_noop (np : JSVal) (reg : Registry)
    (h : typeofStr np ≠ "object" ∨ np = JSVal.null) :
    setPresets np reg = .ok (reg, [Diag.invalidPresets]) := by
  rcases h with h | h
  · have hb : (typeofStr np == "object") = false := by
      simpa using h
    unfold setPresets
    simp [hb]
  · subst h
    rfl

/-- Witness for C8 at the null argument. -/
theorem claim_C8_witness :
    setPresets JSVal.null initialPresets =
      .ok (initialPresets, [Diag.invalidPresets]) :=
  claim_C8_setPresets_invalid_noop JSVal.null initialPresets (Or.inr rfl)

/-- C7 (confirmed): setPresets with a mapping object succeeds, the merged
registry prefers the new entries, and looking up any name k yields the
new rule when k occurs in the new presets and the unchanged prior entry
otherwise; the registry value before the call is untouched (the merge
builds a new state, so prior results are unaffected). -/
theorem claim_C7_setPresets_merge (fields : List (String × JSVal))
    (reg : Registry) (k : String) :
    setPresets (.obj fields) reg = .ok (fields ++ reg, [Diag.presetsUpdated]) ∧
      List.lookup k (fields ++ reg) =
        (List.lookup k fields).or (List.lookup k reg) := by
  constructor
  · rfl
  · induction fields with
    | nil => simp [List.lookup]
    | cons p fs ih =>
      obtain ⟨k', v⟩ := p
      cases hk : (k == k') <;> simp [List.lookup, hk, ih]

/-- C1 (amended; the claim as stated fails at config = null): the
sanitizer returns normally — never propagates an exception — for every
input and every configuration other than the JS null value (for which
the property read options.allow throws a TypeError when the input is a
string), and setPresets returns normally for every argument. -/
theorem claim_C1_no_throw :
    (∀ (input config : JSVal) (reg : Registry),
        typeofStr input ≠ "string" ∨ config ≠ JSVal.null →
          ∃ out, sanitizeInput input config reg = .ok out) ∧
      (∀ (np : JSVal) (reg : Registry), ∃ out, setPresets np reg = .ok out) := by
  constructor
  · intro input config reg h
    cases input with
    | str s =>
      have hc : config ≠ JSVal.null := by
        rcases h with h | h
        · exact absurd rfl h
        · exact h
      obtain ⟨hn, hu⟩ := normalizeConfig_not_nullish config hc
      obtain ⟨out, hout⟩ := resolveRule_ok (normalizeConfig config) reg hn hu
      refine ⟨({ safeValue := (⟨jsReplace out.1 s.data⟩ : String),
                 removedCount :=
                   (s.length : Int) -
                     ((jsReplace out.1 s.data).length : Int) }, out.2), ?_⟩
      rw [sanitizeInput_str, hout, exceptBindOkApp]
    | num n => exact ⟨_, rfl⟩
    | bool b => exact ⟨_, rfl⟩
    | null => exact ⟨_, rfl⟩
    | undefined => exact ⟨_, rfl⟩
    | regexVal src terms => exact ⟨_, rfl⟩
    | obj fields => exact ⟨_, rfl⟩
  · intro np reg
    unfold setPresets
    split
    · exact ⟨_, rfl⟩
    · exact ⟨_, rfl⟩

/-- Counterexample to C1 as stated: for the string input "a" and the
malformed configuration null, sanitizeInput propagates a TypeError. -/
theorem claim_C1_counterexample :
    sanitizeInput (JSVal.str "a") JSVal.null initialPresets =
      .error .typeError := rfl

/-- Witness for C1 at a string input with a non-object, non-null
configuration and at a numeric setPresets argument. -/
theorem claim_C1_witness :
    (∃ out, sanitizeInput (JSVal.str "x") (JSVal.num 3) initialPresets =
        .ok out) ∧
      (∃ out2, setPresets (JSVal.num 7) initialPresets = .ok out2) :=
  ⟨claim_C1_no_throw.1 (JSVal.str "x") (JSVal.num 3) initialPresets
      (Or.inr fun hh => JSVal.noConfusion hh),
   claim_C1_no_throw.2 (JSVal.num 7) initialPresets⟩

/-- C10 (confirmed): whenever sanitizeInput returns normally on a string
input, the returned safeValue is a subsequence of the input (characters
are only deleted), its length is bounded by the input length, and
removedCount is exactly the length delta, hence between 0 and the input
length. -/
theorem claim_C10_subsequence (s : String) (config : JSVal) (reg : Registry)
    (r : SanitizeResult) (log : List Diag)
    (h : sanitizeInput (.str s) config reg = .ok (r, log)) :
    r.safeValue.data.Sublist s.data ∧
      r.safeValue.length ≤ s.length ∧
      r.removedCount = (s.length : Int) - (r.safeValue.length : Int) ∧
      0 ≤ r.removedCount ∧ r.removedCount ≤ (s.length : Int) := by
  rw [sanitizeInput_str] at h
  cases hres : resolveRule (normalizeConfig config) reg with
  | error e =>
    rw [hres, exceptBindErr] at h
    exact absurd h (by intro hh; exact Except.noConfusion hh)
  | ok out =>
    rw [hres, exceptBindOkApp] at h
    injection h with hpair
    injection hpair with h1 h2
    subst h1
    have hsub : (jsReplace out.1 s.data).Sublist s.data :=
      jsReplace_sublist out.1 s.data
    have hle : (jsReplace out.1 s.data).length ≤ s.data.length :=
      hsub.length_le
    have hlen : s.length = s.data.length := rfl
    refine ⟨hsub, hle, rfl, ?_, ?_⟩
    · show (0 : Int) ≤ (s.length : Int) - ((jsReplace out.1 s.data).length : Int)
      rw [hlen]
      omega
    · show (s.length : Int) - ((jsReplace out.1 s.data).length : Int) ≤ (s.length : Int)
      omega

/-- Witness for C10 at the input "a<b" under the default configuration. -/
theorem claim_C10_witness :
    ("ab" : String).data.Sublist ("a<b" : String).data ∧
      ("ab" : String).length ≤ ("a<b" : String).length ∧
      (1 : Int) = (("a<b" : String).length : Int) - (("ab" : String).length : Int) ∧
      (0 : Int) ≤ 1 ∧ (1 : Int) ≤ (("a<b" : String).length : Int) :=
  claim_C10_subsequence "a<b" .undefined initialPresets
    { safeValue := "ab", removedCount := 1 } [] rfl

/-- C2 (confirmed): with the registry in its built-in state and the
default configuration (config omitted), sanitizeInput deletes exactly
the occurrences of the six characters ' " < > & / (safeValue is the
filter of the input keeping every other character) and removedCount is
the number of those occurrences. -/
theorem claim_C2_default_removes_xss (s : String) :
    sanitizeInput (.str s) .undefined initialPresets =
      .ok ({ safeValue := (⟨s.data.filter fun c => !isXSSChar c⟩ : String),
             removedCount := (s.data.countP isXSSChar : Int) }, []) := by
  rw [sanitizeInput_str,
    show resolveRule (normalizeConfig JSVal.undefined) initialPresets =
        Except.ok (JSVal.regexVal "['\"<>&/]" [textTerm], []) from rfl,
    exceptBindOkApp]
  have hrep : jsReplace (JSVal.regexVal "['\"<>&/]" [textTerm]) s.data =
      s.data.filter fun c => !isXSSChar c := by
    show replaceAllGo textTerm [] s.data.length s.data = _
    rw [replaceAllGo_nil_filter textTerm s.data.length s.data (Nat.le_refl _)]
    congr 1
    funext c
    rw [termMatches_textTerm]
  simp only [hrep]
  have hlen := filter_not_length_add_countP isXSSChar s.data
  have hint : (s.length : Int) -
      (((s.data.filter fun c => !isXSSChar c).length : Nat) : Int) =
      ((s.data.countP isXSSChar : Nat) : Int) := by
    rw [show s.length = s.data.length from rfl]
    omega
  rw [hint]

/-- C5 (confirmed): a truthy allow value whose character-class pattern
fails to build makes sanitizeInput return normally, with the same
sanitize result as the default text preset configuration, reporting the
invalid-allow diagnostic instead of raising. -/
theorem claim_C5_invalid_allow_fallback (s : String)
    (fields : List (String × JSVal)) (av : JSVal) (reg : Registry)
    (hl : fields.lookup "allow" = some av)
    (ht : truthy av = true)
    (hb : buildRegex ("[^" ++ toStr av ++ "]") = none) :
    sanitizeInput (.str s) (.obj fields) reg =
      Except.map (fun out => (out.1, [Diag.invalidAllow]))
        (sanitizeInput (.str s) (.str DEFAULT_TYPE) reg) := by
  have hres1 : resolveRule (normalizeConfig (.obj fields)) reg =
      .ok (presetGet reg DEFAULT_TYPE, [Diag.invalidAllow]) := by
    show resolveRule (.obj fields) reg = _
    unfold resolveRule
    rw [show getField (JSVal.obj fields) "allow" = .ok av by
          simp [getField, hl],
        exceptOkBind, if_pos ht]
    simp only [hb]
    rfl
  have hres2 : resolveRule (normalizeConfig (.str DEFAULT_TYPE)) reg =
      .ok (presetGet reg DEFAULT_TYPE, []) := by
    show resolveRule (JSVal.obj [("type", JSVal.str DEFAULT_TYPE)]) reg = _
    unfold resolveRule
    rw [show getField (JSVal.obj [("type", JSVal.str DEFAULT_TYPE)]) "allow" =
          .ok JSVal.undefined from rfl,
        exceptOkBind,
        if_neg (by decide : ¬ (truthy JSVal.undefined = true)),
        show getField (JSVal.obj [("type", JSVal.str DEFAULT_TYPE)]) "type" =
          .ok (JSVal.str DEFAULT_TYPE) from rfl,
        exceptOkBind,
        if_pos (by decide : truthy (JSVal.str DEFAULT_TYPE) = true)]
    rw [show toStr (JSVal.str DEFAULT_TYPE) = DEFAULT_TYPE from rfl]
    simp only [jsOr_self]
    rfl
  rw [sanitizeInput_str s (.obj fields) reg, hres1, exceptBindOkApp,
      sanitizeInput_str s (.str DEFAULT_TYPE) reg, hres2, exceptBindOkApp]
  rfl

/-- Witness for C5 at the fragment consisting of one backslash, whose
pattern is an unterminated character class. -/
theorem claim_C5_witness :
    sanitizeInput (.str "hi<x>") (.obj [("allow", .str "\\")]) initialPresets =
      Except.map (fun out => (out.1, [Diag.invalidAllow]))
        (sanitizeInput (.str "hi<x>") (.str DEFAULT_TYPE) initialPresets) :=
  claim_C5_invalid_allow_fallback "hi<x>" [("allow", .str "\\")]
    (.str "\\") initialPresets rfl rfl rfl

/-- C6 (confirmed): rule resolution is first-match-wins — a present,
truthy allow field makes the result depend only on that field (any type
field is ignored), and when it builds, the whitelist regex from allow is
the resolved rule; when both allow and type are absent or falsy, the
default preset name text is used. -/
theorem claim_C6_first_match_wins (s : String)
    (fields : List (String × JSVal)) (av : JSVal) (reg : Registry)
    (terms : List RTerm) :
    (fields.lookup "allow" = some av → truthy av = true →
       sanitizeInput (.str s) (.obj fields) reg =
         sanitizeInput (.str s) (.obj [("allow", av)]) reg) ∧
    (fields.lookup "allow" = some av → truthy av = true →
       buildRegex ("[^" ++ toStr av ++ "]") = some terms →
       resolveRule (.obj fields) reg =
         .ok (.regexVal ("[^" ++ toStr av ++ "]") terms, [])) ∧
    (truthy ((fields.lookup "allow").getD .undefined) = false →
     truthy ((fields.lookup "type").getD .undefined) = false →
       sanitizeInput (.str s) (.obj fields) reg =
         sanitizeInput (.str s) (.str DEFAULT_TYPE) reg) := by
  refine ⟨?_, ?_, ?_⟩
  · intro hl ht
    have h12 : resolveRule (normalizeConfig (.obj fields)) reg =
        resolveRule (normalizeConfig (.obj [("allow", av)])) reg := by
      show resolveRule (.obj fields) reg =
        resolveRule (.obj [("allow", av)]) reg
      unfold resolveRule
      rw [show getField (JSVal.obj fields) "allow" = .ok av by
            simp [getField, hl],
          show getField (JSVal.obj [("allow", av)]) "allow" = .ok av by
            simp [getField],
          exceptOkBind, exceptOkBind, if_pos ht, if_pos ht]
    rw [sanitizeInput_str s (.obj fields) reg, h12,
        ← sanitizeInput_str s (.obj [("allow", av)]) reg]
  · intro hl ht hb
    unfold resolveRule
    rw [show getField (JSVal.obj fields) "allow" = .ok av by
          simp [getField, hl],
        exceptOkBind, if_pos ht]
    simp only [hb]
    rfl
  · intro h1 h2
    have hres1 : resolveRule (normalizeConfig (.obj fields)) reg =
        .ok (presetGet reg DEFAULT_TYPE, []) := by
      show resolveRule (.obj fields) reg = _
      unfold resolveRule
      rw [show getField (JSVal.obj fields) "allow" =
            .ok ((fields.lookup "allow").getD .undefined) from rfl,
          exceptOkBind,
          if_neg (by rw [h1]; exact Bool.false_ne_true),
          show getField (JSVal.obj fields) "type" =
            .ok ((fields.lookup "type").getD .undefined) from rfl,
          exceptOkBind,
          if_neg (by rw [h2]; exact Bool.false_ne_true)]
      simp only [jsOr_self]
      rfl
    have hres2 : resolveRule (normalizeConfig (.str DEFAULT_TYPE)) reg =
        .ok (presetGet reg DEFAULT_TYPE, []) := by
      show resolveRule (JSVal.obj [("type", JSVal.str DEFAULT_TYPE)]) reg = _
      unfold resolveRule
      rw [show getField (JSVal.obj [("type", JSVal.str DEFAULT_TYPE)]) "allow" =
            .ok JSVal.undefined from rfl,
          exceptOkBind,
          if_neg (by decide : ¬ (truthy JSVal.undefined = true)),
          show getField (JSVal.obj [("type", JSVal.str DEFAULT_TYPE)]) "type" =
            .ok (JSVal.str DEFAULT_TYPE) from rfl,
          exceptOkBind,
          if_pos (by decide : truthy (JSVal.str DEFAULT_TYPE) = true)]
      rw [show toStr (JSVal.str DEFAULT_TYPE) = DEFAULT_TYPE from rfl]
      simp only [jsOr_self]
      rfl
    rw [sanitizeInput_str s (.obj fields) reg, hres1,
        sanitizeInput_str s (.str DEFAULT_TYPE) reg, hres2]

/-- Witness for C6: with both allow = "0-9" and type = "number" present,
the result equals the allow-only configuration's result and the resolved
rule is the whitelist regex built from allow; with both fields absent the
default text configuration's result is returned. -/
theorem claim_C6_witness :
    (sanitizeInput (.str "ab-123")
        (.obj [("allow", .str "0-9"), ("type", .str "number")])
        initialPresets =
      sanitizeInput (.str "ab-123") (.obj [("allow", .str "0-9")])
        initialPresets) ∧
    (resolveRule (.obj [("allow", .str "0-9"), ("type", .str "number")])
        initialPresets =
      .ok (.regexVal "[^0-9]" [.cls true [.range '0' '9']], [])) ∧
    (sanitizeInput (.str "x'y") (.obj []) initialPresets =
      sanitizeInput (.str "x'y") (.str DEFAULT_TYPE) initialPresets) :=
  ⟨(claim_C6_first_match_wins "ab-123"
      [("allow", .str "0-9"), ("type", .str "number")] (.str "0-9")
      initialPresets [.cls true [.range '0' '9']]).1 rfl rfl,
   (claim_C6_first_match_wins "ab-123"
      [("allow", .str "0-9"), ("type", .str "number")] (.str "0-9")
      initialPresets [.cls true [.range '0' '9']]).2.1 rfl rfl rfl,
   (claim_C6_first_match_wins "x'y" [] (.str "0-9")
      initialPresets [.cls true [.range '0' '9']]).2.2 rfl rfl⟩

/-- The registry state after the override setPresets({ text: undefined }),
exhibiting the degenerate case of an undefined default preset. -/
def degRegistry : Registry := ("text", JSVal.undefined) :: initialPresets

/-- A configuration whose allow fragment "]" closes the built character
class early: the pattern [^]] is the negated empty class (any character)
followed by a literal ']'. -/
def injConfig : JSVal := .obj [("allow", .str "]")]

theorem resolveRule_defaultName (reg : Registry) :
    resolveRule (normalizeConfig (.str DEFAULT_TYPE)) reg =
      .ok (presetGet reg DEFAULT_TYPE, []) := by
  show resolveRule (JSVal.obj [("type", JSVal.str DEFAULT_TYPE)]) reg = _
  unfold resolveRule
  rw [show getField (JSVal.obj [("type", JSVal.str DEFAULT_TYPE)]) "allow" =
        .ok JSVal.undefined from rfl,
      exceptOkBind,
      if_neg (by decide : ¬ (truthy JSVal.undefined = true)),
      show getField (JSVal.obj [("type", JSVal.str DEFAULT_TYPE)]) "type" =
        .ok (JSVal.str DEFAULT_TYPE) from rfl,
      exceptOkBind,
      if_pos (by decide : truthy (JSVal.str DEFAULT_TYPE) = true)]
  rw [show toStr (JSVal.str DEFAULT_TYPE) = DEFAULT_TYPE from rfl]
  simp only [jsOr_self]
  rfl

theorem resolveRule_typeOnly (t : String) (reg : Registry)
    (hfal : truthy (presetGet reg t) = false) :
    resolveRule (normalizeConfig (.obj [("type", .str t)])) reg =
      .ok (presetGet reg DEFAULT_TYPE, []) := by
  show resolveRule (JSVal.obj [("type", JSVal.str t)]) reg = _
  unfold resolveRule
  rw [show getField (JSVal.obj [("type", JSVal.str t)]) "allow" =
        .ok JSVal.undefined from rfl,
      exceptOkBind,
      if_neg (by decide : ¬ (truthy JSVal.undefined = true)),
      show getField (JSVal.obj [("type", JSVal.str t)]) "type" =
        .ok (JSVal.str t) from rfl,
      exceptOkBind]
  by_cases h0 : truthy (JSVal.str t) = true
  · rw [if_pos h0, show toStr (JSVal.str t) = t from rfl]
    simp only [jsOr_of_falsy _ _ hfal]
    rfl
  · rw [if_neg h0]
    simp only [jsOr_self]
    rfl

/-- C4 (amended; the degenerate case is not the identity rule): a type
naming a preset whose registry entry is falsy — in particular an absent
preset — resolves to the default text preset; and when even the text
entry is undefined, sanitizeInput does not crash, but JS coerces the
undefined rule to the search string "undefined" and deletes its first
occurrence — which is the identity exactly on inputs in which the
substring "undefined" does not occur. -/
theorem claim_C4_default_fallback (s t : String) (reg : Registry) :
    (truthy (presetGet reg t) = false →
       sanitizeInput (.str s) (.obj [("type", .str t)]) reg =
         sanitizeInput (.str s) (.str DEFAULT_TYPE) reg) ∧
    (truthy (presetGet reg t) = false →
     presetGet reg DEFAULT_TYPE = .undefined →
       sanitizeInput (.str s) (.obj [("type", .str t)]) reg =
         .ok ({ safeValue :=
                  (⟨removeFirstSub ("undefined" : String).data s.data⟩ : String),
                removedCount := (s.length : Int) -
                  ((removeFirstSub ("undefined" : String).data s.data).length :
                    Int) }, []) ∧
       (occursIn ("undefined" : String).data s.data = false →
          sanitizeInput (.str s) (.obj [("type", .str t)]) reg =
            .ok ({ safeValue := s, removedCount := 0 }, []))) := by
  constructor
  · intro hfal
    rw [sanitizeInput_str s (.obj [("type", .str t)]) reg,
        resolveRule_typeOnly t reg hfal,
        sanitizeInput_str s (.str DEFAULT_TYPE) reg,
        resolveRule_defaultName reg]
  · intro hfal hundef
    have hres : resolveRule (normalizeConfig (.obj [("type", .str t)])) reg =
        .ok (JSVal.undefined, []) := by
      rw [resolveRule_typeOnly t reg hfal, hundef]
    constructor
    · rw [sanitizeInput_str s (.obj [("type", .str t)]) reg, hres,
          exceptBindOkApp]
      rfl
    · intro hocc
      rw [sanitizeInput_str s (.obj [("type", .str t)]) reg, hres,
          exceptBindOkApp]
      have hrm : removeFirstSub ("undefined" : String).data s.data = s.data :=
        removeFirstSub_of_not_occursIn _ _ hocc
      rw [show jsReplace JSVal.undefined s.data =
            removeFirstSub ("undefined" : String).data s.data from rfl,
          hrm,
          show ((s.data.length : Nat) : Int) = (s.length : Int) from rfl,
          sub_self]

/-- Counterexample to C4 as stated: after overriding the text preset to
undefined, sanitizing the string "undefined" with an unknown type removes
nine characters instead of acting as the identity rule. -/
theorem claim_C4_counterexample :
    setPresets (.obj [("text", JSVal.undefined)]) initialPresets =
        .ok (degRegistry, [Diag.presetsUpdated]) ∧
      sanitizeInput (.str "undefined") (.obj [("type", .str "missing")])
          degRegistry =
        .ok ({ safeValue := "", removedCount := 9 }, []) ∧
      ("" : String) ≠ "undefined" :=
  ⟨rfl, rfl, by decide⟩

/-- Witness for C4 at an absent type name against the built-in registry,
and at the degenerate registry on an input without the substring
"undefined". -/
theorem claim_C4_witness :
    (sanitizeInput (.str "x<y") (.obj [("type", .str "nope")]) initialPresets =
        sanitizeInput (.str "x<y") (.str DEFAULT_TYPE) initialPresets) ∧
      (sanitizeInput (.str "abc") (.obj [("type", .str "missing")])
          degRegistry =
        .ok ({ safeValue := "abc", removedCount := 0 }, [])) :=
  ⟨(claim_C4_default_fallback "x<y" "nope" initialPresets).1 rfl,
   ((claim_C4_default_fallback "abc" "missing" degRegistry).2 rfl rfl).2 rfl⟩

/-- C3 (amended; re-sanitizing is the identity whenever the resolved rule
is a single character class — which covers every preset of the built-in
registry and every allow fragment whose pattern stays one class — while
an allow fragment that escapes the class can be non-idempotent): if the
configuration resolves to a one-class regex and the first sanitize call
returns r1, then sanitizing r1.safeValue under the same configuration and
registry returns it unchanged with removedCount 0. -/
theorem claim_C3_idempotent_single_class (s : String) (config : JSVal)
    (reg : Registry) (src : String) (t0 : RTerm) (lg : List Diag)
    (r1 : SanitizeResult) (log1 : List Diag)
    (hres : resolveRule (normalizeConfig config) reg =
      .ok (.regexVal src [t0], lg))
    (h1 : sanitizeInput (.str s) config reg = .ok (r1, log1)) :
    sanitizeInput (.str r1.safeValue) config reg =
      .ok ({ safeValue := r1.safeValue, removedCount := 0 }, lg) := by
  rw [sanitizeInput_str, hres, exceptBindOkApp] at h1
  injection h1 with hp
  injection hp with hr hl
  have hfil : ∀ l : List Char,
      jsReplace (JSVal.regexVal src [t0]) l =
        l.filter fun c => !termMatches t0 c := by
    intro l
    show replaceAllGo t0 [] l.length l = _
    exact replaceAllGo_nil_filter t0 l.length l (Nat.le_refl _)
  have hsafe : r1.safeValue =
      (⟨s.data.filter fun c => !termMatches t0 c⟩ : String) := by
    rw [← hr]
    show (⟨jsReplace (JSVal.regexVal src [t0]) s.data⟩ : String) = _
    rw [hfil]
  rw [sanitizeInput_str, hres, exceptBindOkApp, hsafe]
  have hidem : jsReplace (JSVal.regexVal src [t0])
      ((⟨s.data.filter fun c => !termMatches t0 c⟩ : String)).data =
      s.data.filter fun c => !termMatches t0 c := by
    rw [hfil]
    show (s.data.filter fun c => !termMatches t0 c).filter
        (fun c => !termMatches t0 c) = _
    rw [List.filter_filter]
    simp
  rw [hidem,
      show (((⟨s.data.filter fun c => !termMatches t0 c⟩ : String)).length :
          Int) =
        ((s.data.filter fun c => !termMatches t0 c).length : Int) from rfl,
      sub_self]

/-- Counterexample to C3 as stated: with the allow fragment "]", the
constructed regex [^]] matches any character followed by ']', so
sanitizing "ab]]" yields "a]", and re-sanitizing "a]" under the same
configuration yields "" with a removedCount of 2, not 0. -/
theorem claim_C3_counterexample :
    sanitizeInput (.str "ab]]") injConfig initialPresets =
        .ok ({ safeValue := "a]", removedCount := 2 }, []) ∧
      sanitizeInput (.str "a]") injConfig initialPresets =
        .ok ({ safeValue := "", removedCount := 2 }, []) ∧
      ("" : String) ≠ "a]" ∧ (2 : Int) ≠ 0 :=
  ⟨rfl, rfl, by decide, by decide⟩

/-- Witness for the amended C3 at the allow fragment "0-9" on "ab-123". -/
theorem claim_C3_witness :
    sanitizeInput (.str "123") (.obj [("allow", .str "0-9")])
        initialPresets =
      .ok ({ safeValue := "123", removedCount := 0 }, []) :=
  claim_C3_idempotent_single_class "ab-123" (.obj [("allow", .str "0-9")])
    initialPresets "[^0-9]" (.cls true [.range '0' '9']) []
    { safeValue := "123", removedCount := 3 } [] rfl rfl

end ClientSanitizer
